import Mathlib

/-!
Verification of the oscillation controller in `prueba_EndStop.c`.

The sketch drives one stepper axis (`stepperZ`, an AccelStepper instance)
back and forth: it retracts toward an endstop and, on endstop assertion,
reverses to a far forward target; on forward arrival it reverses back.

The AccelStepper motion-profile driver is an external collaborator: only the
position counter, the target and the operations the sketch consumes are
modelled here.  Its velocity-profile internals (speed, acceleration state)
are abstracted as an opaque component `internal : sig`, and the two
operations whose effect depends on those internals (`stop` and `run`) are
taken as abstract functions constrained by the collaborator contract:
`stop()` recomputes the deceleration target without moving the position
counter, and `run()` (one tick) advances the position without retargeting.
-/

/-- Arduino digital level HIGH (pull-up keeps the endstop pin HIGH when the
switch is open). -/
def HIGH : Bool := true

/-- Arduino digital level LOW (the endstop switch pulls the pin LOW when
pressed: active-low convention). -/
def LOW : Bool := false

/-- `const long MICROSTEPS_PER_REVOLUTION = 800;` -/
def MICROSTEPS_PER_REVOLUTION : Int := 800

/-- `const long TARGET_MICROSTEPS = TARGET_REVOLUTIONS * MICROSTEPS_PER_REVOLUTION;`
with `TARGET_REVOLUTIONS = 0.5`, so `0.5 * 800 = 400` microsteps (the float
product is exact and the conversion to `long` truncates nothing). -/
def TARGET_MICROSTEPS : Int := 400

/-- `const long MAX_DISTANCE = 1000000;` -/
def MAX_DISTANCE : Int := 1000000

/-- State of the AccelStepper driver as seen by the sketch: the signed
position counter `pos` (`currentPosition()`), the commanded target `target`
(`moveTo` destination), and the opaque velocity-profile internals. -/
structure DriverState (sig : Type) where
  pos : Int
  target : Int
  internal : sig
deriving Repr

/-- `currentPosition()`: returns the signed position counter. -/
def currentPosition {sig : Type} (d : DriverState sig) : Int := d.pos

/-- `distanceToGo()`: signed steps still needed to reach the current target
(AccelStepper computes `_targetPos - _currentPos`). -/
def distanceToGo {sig : Type} (d : DriverState sig) : Int := d.target - d.pos

/-- `moveTo(absolute)`: records a new destination; position is untouched. -/
def moveTo {sig : Type} (d : DriverState sig) (t : Int) : DriverState sig :=
  { d with target := t }

/-- `setCurrentPosition(position)`: resets the position counter (AccelStepper
also makes the target coincide, so the axis is considered arrived). -/
def setCurrentPosition {sig : Type} (d : DriverState sig) (v : Int) : DriverState sig :=
  { d with pos := v, target := v }

/-- The abstract collaborator operations of AccelStepper whose results depend
on the opaque velocity-profile internals, together with the two contract
facts the sketch relies on: `stop()` only recomputes a decelerating stop
target (the position counter is not moved by the call itself), and `run()`
(one tick) only advances the motion state (the commanded target is kept). -/
structure DriverModel (sig : Type) where
  stopNow : DriverState sig → DriverState sig
  tick : DriverState sig → DriverState sig
  stop_pos : ∀ d, (stopNow d).pos = d.pos
  tick_target : ∀ d, (tick d).target = d.target

/-- Controller state: the sketch's direction flag `movingForward` plus the
driver it commands. -/
structure SysState (sig : Type) where
  movingForward : Bool
  drv : DriverState sig
deriving Repr

/-- `setup()`: after the speed/acceleration configuration calls (which only
touch the opaque internals of `d0`), the sketch runs
`setCurrentPosition(0)` and then `moveTo(-MAX_DISTANCE)`, with
`movingForward` initialised to `false`. -/
def setupState {sig : Type} (d0 : DriverState sig) : SysState sig :=
  { movingForward := false
    drv := moveTo (setCurrentPosition d0 0) (-MAX_DISTANCE) }

/-- The two-branch decision rule of `loop()` (everything before the final
`stepperZ.run()` call), with `e` the raw `digitalRead(ENDSTOP_Z_PIN)`. -/
def decisionRule {sig : Type} (M : DriverModel sig) (s : SysState sig) (e : Bool) :
    SysState sig :=
  if !s.movingForward && (e == LOW) then
    let d1 := M.stopNow s.drv
    let forwardPosition := currentPosition d1 + MAX_DISTANCE
    { movingForward := true, drv := moveTo d1 forwardPosition }
  else if s.movingForward && (distanceToGo s.drv == 0) then
    let backPosition := currentPosition s.drv - MAX_DISTANCE
    { movingForward := false, drv := moveTo s.drv backPosition }
  else
    s

/-- One full `loop()` iteration: the decision rule followed by the
unconditional `stepperZ.run()` tick. -/
def loopStep {sig : Type} (M : DriverModel sig) (s : SysState sig) (e : Bool) :
    SysState sig :=
  let s1 := decisionRule M s e
  { s1 with drv := M.tick s1.drv }

/-- Iterated `loop()` over a list of successive endstop readings. -/
def runLoop {sig : Type} (M : DriverModel sig) (s : SysState sig) (es : List Bool) :
    SysState sig :=
  es.foldl (loopStep M) s

/-- A concrete instance of the collaborator contract, used to evaluate the
theorems on closed inputs: `stop` decelerates instantly (target becomes the
current position) and a tick moves one step toward the target. -/
def unitModel : DriverModel Unit where
  stopNow d := { d with target := d.pos }
  tick d :=
    { d with pos := d.pos + (if d.pos < d.target then 1
                             else if d.target < d.pos then -1 else 0) }
  stop_pos _ := rfl
  tick_target _ := rfl

/-- A second concrete instance with the same tick but a different (identity)
stop operation, to exhibit independence from `stopNow`. -/
def unitModelKeep : DriverModel Unit where
  stopNow d := { d with target := d.target }
  tick d :=
    { d with pos := d.pos + (if d.pos < d.target then 1
                             else if d.target < d.pos then -1 else 0) }
  stop_pos _ := rfl
  tick_target _ := rfl

/-- **C4** Initial state: after `setup()`, `movingForward = false`, the
driver's position counter is `0`, and the target is `-MAX_DISTANCE`. -/
theorem setup_initial_state {sig : Type} (d0 : DriverState sig) :
    (setupState d0).movingForward = false ∧
    (setupState d0).drv.pos = 0 ∧
    (setupState d0).drv.target = -MAX_DISTANCE :=
  ⟨rfl, rfl, rfl⟩

/-- **C1** Endstop-triggered reversal: on a tick with `movingForward = false`
and the endstop reading LOW, the controller calls `stop()`, flips
`movingForward` to `true`, and sets the target to `currentPosition()` read
after the `stop()` call, plus `MAX_DISTANCE`; the tick after the decision
rule keeps that target. -/
theorem endstop_reversal {sig : Type} (M : DriverModel sig) (s : SysState sig)
    (e : Bool) (hm : s.movingForward = false) (he : e = LOW) :
    (loopStep M s e).movingForward = true ∧
    (loopStep M s e).drv.target
      = currentPosition (M.stopNow s.drv) + MAX_DISTANCE ∧
    loopStep M s e
      = ⟨true, M.tick (moveTo (M.stopNow s.drv)
          (currentPosition (M.stopNow s.drv) + MAX_DISTANCE))⟩ := by
  have hcond : (!s.movingForward && (e == LOW)) = true := by
    simp [hm, he, LOW]
  refine ⟨?_, ?_, ?_⟩
  · simp [loopStep, decisionRule, hcond]
  · simp [loopStep, decisionRule, hcond, M.tick_target, moveTo, currentPosition]
  · simp [loopStep, decisionRule, hcond]

/-- Closed-input check of `endstop_reversal` under the concrete model. -/
theorem endstop_reversal_witness :
    (loopStep unitModel ⟨false, ⟨7, -100, ()⟩⟩ false).movingForward = true ∧
    (loopStep unitModel ⟨false, ⟨7, -100, ()⟩⟩ false).drv.target
      = currentPosition (unitModel.stopNow ⟨7, -100, ()⟩) + MAX_DISTANCE ∧
    loopStep unitModel ⟨false, ⟨7, -100, ()⟩⟩ false
      = ⟨true, unitModel.tick (moveTo (unitModel.stopNow ⟨7, -100, ()⟩)
          (currentPosition (unitModel.stopNow ⟨7, -100, ()⟩) + MAX_DISTANCE))⟩ :=
  endstop_reversal unitModel ⟨false, ⟨7, -100, ()⟩⟩ false rfl rfl

/-- **C5** Forward-arrival reversal: on a tick with `movingForward = true`
and `distanceToGo() = 0`, the controller flips `movingForward` to `false`
and sets the target to `currentPosition() - MAX_DISTANCE`; no `stop()` is
involved: the step is the same under any model sharing the tick function. -/
theorem forward_arrival_reversal {sig : Type} (M N : DriverModel sig)
    (s : SysState sig) (e : Bool) (hm : s.movingForward = true)
    (hd : distanceToGo s.drv = 0) (ht : M.tick = N.tick) :
    (loopStep M s e).movingForward = false ∧
    (loopStep M s e).drv.target = currentPosition s.drv - MAX_DISTANCE ∧
    loopStep M s e = loopStep N s e := by
  have hc1 : (!s.movingForward && (e == LOW)) = false := by simp [hm]
  have hc2 : (s.movingForward && (distanceToGo s.drv == 0)) = true := by
    simp [hm, hd]
  refine ⟨?_, ?_, ?_⟩
  · simp [loopStep, decisionRule, hc1, hc2]
  · simp [loopStep, decisionRule, hc1, hc2, M.tick_target, moveTo, currentPosition]
  · simp [loopStep, decisionRule, hc1, hc2, ht]

/-- Closed-input check of `forward_arrival_reversal`: the two concrete models
differ in their stop operation yet produce the same step. -/
theorem forward_arrival_reversal_witness :
    (loopStep unitModel ⟨true, ⟨42, 42, ()⟩⟩ false).movingForward = false ∧
    (loopStep unitModel ⟨true, ⟨42, 42, ()⟩⟩ false).drv.target
      = currentPosition (⟨42, 42, ()⟩ : DriverState Unit) - MAX_DISTANCE ∧
    loopStep unitModel ⟨true, ⟨42, 42, ()⟩⟩ false
      = loopStep unitModelKeep ⟨true, ⟨42, 42, ()⟩⟩ false :=
  forward_arrival_reversal unitModel unitModelKeep ⟨true, ⟨42, 42, ()⟩⟩ false
    rfl rfl rfl

/-- **C6** Priority ordering: when the endstop branch condition holds
(`movingForward = false`, endstop LOW) and the arrival condition
`distanceToGo() = 0` holds on the same tick, rule 1 fires (flag becomes
`true`, target becomes post-stop position plus `MAX_DISTANCE`) and rule 2 is
skipped: the resulting target is not `currentPosition() - MAX_DISTANCE`. -/
theorem endstop_priority {sig : Type} (M : DriverModel sig) (s : SysState sig)
    (e : Bool) (hm : s.movingForward = false) (he : e = LOW)
    (hd : distanceToGo s.drv = 0) :
    (loopStep M s e).movingForward = true ∧
    (loopStep M s e).drv.target
      = currentPosition (M.stopNow s.drv) + MAX_DISTANCE ∧
    (loopStep M s e).drv.target ≠ currentPosition s.drv - MAX_DISTANCE := by
  obtain ⟨h1, h2, -⟩ := endstop_reversal M s e hm he
  refine ⟨h1, h2, ?_⟩
  rw [h2, currentPosition, currentPosition, M.stop_pos]
  simp only [MAX_DISTANCE]
  omega

/-- Closed-input check of `endstop_priority` on a state where both trigger
conditions hold at once. -/
theorem endstop_priority_witness :
    (loopStep unitModel ⟨false, ⟨5, 5, ()⟩⟩ false).movingForward = true ∧
    (loopStep unitModel ⟨false, ⟨5, 5, ()⟩⟩ false).drv.target
      = currentPosition (unitModel.stopNow ⟨5, 5, ()⟩) + MAX_DISTANCE ∧
    (loopStep unitModel ⟨false, ⟨5, 5, ()⟩⟩ false).drv.target
      ≠ currentPosition (⟨5, 5, ()⟩ : DriverState Unit) - MAX_DISTANCE :=
  endstop_priority unitModel ⟨false, ⟨5, 5, ()⟩⟩ false rfl rfl rfl

/-- **C7** No reversal while retracting with endstop clear: on a tick with
`movingForward = false` and the endstop reading HIGH (not asserted), the
decision rule leaves the whole state unchanged — the iteration is exactly
the final tick — and in particular the target is preserved. -/
theorem retracting_no_reversal {sig : Type} (M : DriverModel sig)
    (s : SysState sig) (e : Bool) (hm : s.movingForward = false)
    (he : e = HIGH) :
    decisionRule M s e = s ∧
    loopStep M s e = ⟨s.movingForward, M.tick s.drv⟩ ∧
    (loopStep M s e).drv.target = s.drv.target := by
  have hc1 : (!s.movingForward && (e == LOW)) = false := by
    simp [he, HIGH, LOW]
  have hc2 : (s.movingForward && (distanceToGo s.drv == 0)) = false := by
    simp [hm]
  have hdec : decisionRule M s e = s := by
    simp [decisionRule, hc1, hc2]
  refine ⟨hdec, ?_, ?_⟩
  · simp [loopStep, hdec]
  · simp [loopStep, hdec, M.tick_target]

/-- Closed-input check of `retracting_no_reversal`. -/
theorem retracting_no_reversal_witness :
    decisionRule unitModel ⟨false, ⟨3, -20, ()⟩⟩ true = ⟨false, ⟨3, -20, ()⟩⟩ ∧
    loopStep unitModel ⟨false, ⟨3, -20, ()⟩⟩ true
      = ⟨false, unitModel.tick ⟨3, -20, ()⟩⟩ ∧
    (loopStep unitModel ⟨false, ⟨3, -20, ()⟩⟩ true).drv.target = -20 :=
  retracting_no_reversal unitModel ⟨false, ⟨3, -20, ()⟩⟩ true rfl rfl

/-- **C10** Endstop ignored while advancing: on a tick with
`movingForward = true`, the endstop reading LOW, and `distanceToGo() ≠ 0`,
neither branch fires: the decision rule is the identity, the flag stays
`true`, the target is untouched, and no stop or reversal happens. -/
theorem advancing_endstop_ignored {sig : Type} (M : DriverModel sig)
    (s : SysState sig) (e : Bool) (hm : s.movingForward = true)
    (he : e = LOW) (hd : distanceToGo s.drv ≠ 0) :
    decisionRule M s e = s ∧
    loopStep M s e = ⟨s.movingForward, M.tick s.drv⟩ ∧
    (loopStep M s e).movingForward = true ∧
    (loopStep M s e).drv.target = s.drv.target := by
  have hc1 : (!s.movingForward && (e == LOW)) = false := by simp [hm]
  have hc2 : (s.movingForward && (distanceToGo s.drv == 0)) = false := by
    simp [hd]
  have hdec : decisionRule M s e = s := by
    simp [decisionRule, hc1, hc2]
  refine ⟨hdec, ?_, ?_, ?_⟩
  · simp [loopStep, hdec]
  · simp [loopStep, hdec, hm]
  · simp [loopStep, hdec, M.tick_target]

/-- Closed-input check of `advancing_endstop_ignored`. -/
theorem advancing_endstop_ignored_witness :
    decisionRule unitModel ⟨true, ⟨10, 50, ()⟩⟩ false = ⟨true, ⟨10, 50, ()⟩⟩ ∧
    loopStep unitModel ⟨true, ⟨10, 50, ()⟩⟩ false
      = ⟨true, unitModel.tick ⟨10, 50, ()⟩⟩ ∧
    (loopStep unitModel ⟨true, ⟨10, 50, ()⟩⟩ false).movingForward = true ∧
    (loopStep unitModel ⟨true, ⟨10, 50, ()⟩⟩ false).drv.target = 50 :=
  advancing_endstop_ignored unitModel ⟨true, ⟨10, 50, ()⟩⟩ false rfl rfl
    (by decide)

/-- Erase the opaque internals down to their first component (used to relate
a run of the tick-counting instrumentation to a run of the original). -/
def eraseDrv {sig : Type} (d : DriverState (sig × Nat)) : DriverState sig :=
  ⟨d.pos, d.target, d.internal.1⟩

/-- Erasure of the tick counter from a controller state. -/
def eraseSys {sig : Type} (s : SysState (sig × Nat)) : SysState sig :=
  ⟨s.movingForward, eraseDrv s.drv⟩

/-- Number of `run()` (tick) calls recorded so far. -/
def tickCount {sig : Type} (s : SysState (sig × Nat)) : Nat :=
  s.drv.internal.2

/-- Instrument a driver model with a tick counter: `tick` increments it,
`stop` leaves it alone, and both otherwise behave as in `M`. -/
def countingModel {sig : Type} (M : DriverModel sig) : DriverModel (sig × Nat) where
  stopNow d :=
    let d1 := M.stopNow (eraseDrv d)
    ⟨d1.pos, d1.target, (d1.internal, d.internal.2)⟩
  tick d :=
    let d1 := M.tick (eraseDrv d)
    ⟨d1.pos, d1.target, (d1.internal, d.internal.2 + 1)⟩
  stop_pos d := M.stop_pos (eraseDrv d)
  tick_target d := M.tick_target (eraseDrv d)

/-- **C8** Tick invocation: in the counter-instrumented loop, every
iteration increments the tick counter by exactly one regardless of which
branch fired; the decision rule alone never ticks (so the single tick comes
after it); and the instrumentation is faithful: erasing the counter from an
instrumented iteration gives exactly the original iteration. -/
theorem tick_once_per_iteration {sig : Type} (M : DriverModel sig)
    (s : SysState (sig × Nat)) (e : Bool) :
    tickCount (loopStep (countingModel M) s e) = tickCount s + 1 ∧
    tickCount (decisionRule (countingModel M) s e) = tickCount s ∧
    eraseSys (loopStep (countingModel M) s e) = loopStep M (eraseSys s) e := by
  have hdec : tickCount (decisionRule (countingModel M) s e) = tickCount s := by
    simp only [decisionRule]
    split
    · rfl
    · split
      · rfl
      · rfl
  have herase : eraseSys (decisionRule (countingModel M) s e)
      = decisionRule M (eraseSys s) e := by
    simp only [decisionRule, eraseSys, eraseDrv, countingModel, moveTo,
      currentPosition, distanceToGo]
    split
    · rfl
    · split
      · rfl
      · rfl
  refine ⟨?_, hdec, ?_⟩
  · simp only [loopStep, tickCount, countingModel]
    exact congrArg (fun n => n + 1) hdec
  · simp only [loopStep]
    rw [← herase]
    rfl

/-- Executable form of "the endstop reads clear and `distanceToGo() > 0`
on every one of the successive iterations". -/
def noOpTraceB {sig : Type} (M : DriverModel sig) :
    SysState sig → List Bool → Bool
  | _, [] => true
  | s, e :: es =>
      (e == HIGH) && decide (0 < distanceToGo s.drv)
        && noOpTraceB M (loopStep M s e) es

/-- On one such iteration neither branch fires, so the flag survives. -/
theorem noop_step_flag {sig : Type} (M : DriverModel sig) (s : SysState sig)
    (e : Bool) (he : e = HIGH) (hd : 0 < distanceToGo s.drv) :
    (loopStep M s e).movingForward = s.movingForward := by
  have hne : distanceToGo s.drv ≠ 0 := by omega
  have hc1 : (!s.movingForward && (e == LOW)) = false := by
    simp [he, HIGH, LOW]
  have hc2 : (s.movingForward && (distanceToGo s.drv == 0)) = false := by
    simp [hne]
  simp [loopStep, decisionRule, hc1, hc2]

/-- **C9** Idempotence of no-op ticks: across any number of consecutive
iterations on which the endstop reads clear (HIGH) and `distanceToGo() > 0`
throughout, `movingForward` at the end equals `movingForward` at the
start. -/
theorem noop_ticks_preserve_flag {sig : Type} (M : DriverModel sig)
    (s : SysState sig) (es : List Bool) (h : noOpTraceB M s es = true) :
    (runLoop M s es).movingForward = s.movingForward := by
  induction es generalizing s with
  | nil => rfl
  | cons e es ih =>
      simp only [noOpTraceB, Bool.and_eq_true, beq_iff_eq,
        decide_eq_true_eq] at h
      obtain ⟨⟨he, hd⟩, hrest⟩ := h
      have hstep := noop_step_flag M s e he hd
      calc (runLoop M s (e :: es)).movingForward
          = (runLoop M (loopStep M s e) es).movingForward := rfl
        _ = (loopStep M s e).movingForward := ih (loopStep M s e) hrest
        _ = s.movingForward := hstep

/-- Closed-input check of `noop_ticks_preserve_flag` over three
iterations. -/
theorem noop_ticks_preserve_flag_witness :
    noOpTraceB unitModel ⟨false, ⟨0, 5, ()⟩⟩ [true, true, true] = true ∧
    (runLoop unitModel ⟨false, ⟨0, 5, ()⟩⟩ [true, true, true]).movingForward
      = false := by
  have h : noOpTraceB unitModel ⟨false, ⟨0, 5, ()⟩⟩ [true, true, true] = true := by
    decide
  exact ⟨h, noop_ticks_preserve_flag unitModel ⟨false, ⟨0, 5, ()⟩⟩
    [true, true, true] h⟩

/-- Controller state extended with a ghost record of the position read at
the last direction transition (initialisation counts as a retraction
transition at position `0`). -/
structure GSysState (sig : Type) where
  sys : SysState sig
  lastTransPos : Int

/-- Ghost-instrumented `setup()`. -/
def gSetup {sig : Type} (d0 : DriverState sig) : GSysState sig :=
  ⟨setupState d0, 0⟩

/-- Ghost-instrumented `loop()` iteration: the real step, plus the
bookkeeping of the position read at a firing transition (post-stop position
for the endstop branch, pre-retarget position for the arrival branch). -/
def gLoopStep {sig : Type} (M : DriverModel sig) (g : GSysState sig) (e : Bool) :
    GSysState sig :=
  { sys := loopStep M g.sys e
    lastTransPos :=
      if !g.sys.movingForward && (e == LOW) then
        currentPosition (M.stopNow g.sys.drv)
      else if g.sys.movingForward && (distanceToGo g.sys.drv == 0) then
        currentPosition g.sys.drv
      else
        g.lastTransPos }

/-- Ghost-instrumented run from `setup()` over a list of endstop readings. -/
def gRun {sig : Type} (M : DriverModel sig) (d0 : DriverState sig)
    (es : List Bool) : GSysState sig :=
  es.foldl (gLoopStep M) (gSetup d0)

/-- The direction/target invariant: forward implies the target is the
last-transition position plus `MAX_DISTANCE`; retracting implies it is the
last-transition position minus `MAX_DISTANCE`. -/
def TargetInv {sig : Type} (g : GSysState sig) : Prop :=
  (g.sys.movingForward = true →
    g.sys.drv.target = g.lastTransPos + MAX_DISTANCE) ∧
  (g.sys.movingForward = false →
    g.sys.drv.target = g.lastTransPos - MAX_DISTANCE)

/-- The ghost step is the real step on the `sys` component. -/
theorem gLoopStep_sys {sig : Type} (M : DriverModel sig) (g : GSysState sig)
    (e : Bool) : (gLoopStep M g e).sys = loopStep M g.sys e := rfl

/-- A ghost run projects to the real run. -/
theorem gRun_sys {sig : Type} (M : DriverModel sig) (d0 : DriverState sig)
    (es : List Bool) :
    (gRun M d0 es).sys = runLoop M (setupState d0) es := by
  suffices h : ∀ (es : List Bool) (g : GSysState sig),
      (es.foldl (gLoopStep M) g).sys = es.foldl (loopStep M) g.sys from
    h es (gSetup d0)
  intro es
  induction es with
  | nil => intro g; rfl
  | cons e es ih =>
      intro g
      simp only [List.foldl_cons]
      rw [ih (gLoopStep M g e), gLoopStep_sys]

/-- The single-step preservation of the invariant. -/
theorem targetInv_step {sig : Type} (M : DriverModel sig) (g : GSysState sig)
    (e : Bool) (h : TargetInv g) : TargetInv (gLoopStep M g e) := by
  obtain ⟨hfwd, hback⟩ := h
  by_cases h1 : (!g.sys.movingForward && (e == LOW)) = true
  · constructor
    · intro
      simp [gLoopStep, loopStep, decisionRule, h1, M.tick_target, moveTo,
        currentPosition]
    · intro habs
      exfalso
      simp only [gLoopStep, loopStep, decisionRule, h1, if_true] at habs
      simp at habs
  · by_cases h2 : (g.sys.movingForward && (distanceToGo g.sys.drv == 0)) = true
    · constructor
      · intro habs
        simp [gLoopStep, loopStep, decisionRule, h1, h2] at habs
      · intro
        simp [gLoopStep, loopStep, decisionRule, h1, h2, M.tick_target, moveTo,
          currentPosition]
    · have h1f : (!g.sys.movingForward && (e == LOW)) = false := by
        simpa using h1
      have h2f : (g.sys.movingForward && (distanceToGo g.sys.drv == 0)) = false := by
        simpa using h2
      constructor
      · intro hm
        have : g.sys.movingForward = true := by
          have := congrArg SysState.movingForward
            (show loopStep M g.sys e = ⟨g.sys.movingForward, M.tick g.sys.drv⟩ by
              simp [loopStep, decisionRule, h1f, h2f])
          simp only [gLoopStep] at hm
          rw [this] at hm
          exact hm
        have ht := hfwd this
        simp [gLoopStep, loopStep, decisionRule, h1f, h2f, M.tick_target, ht]
      · intro hm
        have : g.sys.movingForward = false := by
          have := congrArg SysState.movingForward
            (show loopStep M g.sys e = ⟨g.sys.movingForward, M.tick g.sys.drv⟩ by
              simp [loopStep, decisionRule, h1f, h2f])
          simp only [gLoopStep] at hm
          rw [this] at hm
          exact hm
        have ht := hback this
        simp [gLoopStep, loopStep, decisionRule, h1f, h2f, M.tick_target, ht]

/-- **C2** Direction/target invariant: it holds at initialisation (target
`0 - MAX_DISTANCE` with the flag retracting), it is preserved by every
`loop()` iteration, and hence it holds in every reachable state (any run
from `setup()`), the ghost field being the position read at the last
transition. -/
theorem direction_target_invariant {sig : Type} (M : DriverModel sig)
    (d0 : DriverState sig) (es : List Bool) :
    TargetInv (gSetup d0) ∧
    (∀ (g : GSysState sig) (e : Bool), TargetInv g → TargetInv (gLoopStep M g e)) ∧
    TargetInv (gRun M d0 es) := by
  have hinit : TargetInv (gSetup d0) := by
    constructor
    · intro habs
      exact absurd habs (by simp [gSetup, setupState, moveTo, setCurrentPosition])
    · intro
      rfl
  refine ⟨hinit, targetInv_step M, ?_⟩
  rw [gRun]
  suffices h : ∀ (es : List Bool) (g : GSysState sig),
      TargetInv g → TargetInv (es.foldl (gLoopStep M) g) from
    h es (gSetup d0) hinit
  intro es
  induction es with
  | nil => intro g hg; exact hg
  | cons e es ih =>
      intro g hg
      simp only [List.foldl_cons]
      exact ih (gLoopStep M g e) (targetInv_step M g e hg)

/-- Closed-input check of `direction_target_invariant` (a retraction, an
endstop hit, and a quiet tick). -/
theorem direction_target_invariant_witness :
    TargetInv (gRun unitModel ⟨9, 9, ()⟩ [true, false, true]) :=
  (direction_target_invariant unitModel ⟨9, 9, ()⟩ [true, false, true]).2.2

/-- **C3** Dead forward-travel constant: `TARGET_MICROSTEPS` is `400` and
`MAX_DISTANCE` is `1000000 ≠ 400`; yet the only targets the controller ever
commands are the initial `currentPosition - MAX_DISTANCE`, an unchanged
target, post-stop `currentPosition + MAX_DISTANCE`, or
`currentPosition - MAX_DISTANCE`; and the forward move commanded by the
endstop branch always spans `MAX_DISTANCE`, never `TARGET_MICROSTEPS`. -/
theorem dead_forward_constant :
    TARGET_MICROSTEPS = 400 ∧
    MAX_DISTANCE = 1000000 ∧
    MAX_DISTANCE ≠ TARGET_MICROSTEPS ∧
    (∀ (sig : Type) (d0 : DriverState sig),
      (setupState d0).drv.target
        = currentPosition (setCurrentPosition d0 0) - MAX_DISTANCE) ∧
    (∀ (sig : Type) (M : DriverModel sig) (s : SysState sig) (e : Bool),
      (loopStep M s e).drv.target = s.drv.target ∨
      (loopStep M s e).drv.target
        = currentPosition (M.stopNow s.drv) + MAX_DISTANCE ∨
      (loopStep M s e).drv.target = currentPosition s.drv - MAX_DISTANCE) ∧
    (∀ (sig : Type) (M : DriverModel sig) (d : DriverState sig),
      distanceToGo (decisionRule M ⟨false, d⟩ LOW).drv = MAX_DISTANCE) := by
  refine ⟨rfl, rfl, by decide, ?_, ?_, ?_⟩
  · intro sig d0
    simp [setupState, moveTo, setCurrentPosition, currentPosition]
  · intro sig M s e
    have hT : (loopStep M s e).drv.target = (decisionRule M s e).drv.target :=
      M.tick_target _
    rw [hT]
    by_cases h1 : (!s.movingForward && (e == LOW)) = true
    · right; left
      simp [decisionRule, h1, moveTo, currentPosition]
    · by_cases h2 : (s.movingForward && (distanceToGo s.drv == 0)) = true
      · right; right
        simp [decisionRule, h1, h2, moveTo, currentPosition]
      · left
        simp [decisionRule, h1, h2]
  · intro sig M d
    simp [decisionRule, LOW, distanceToGo, moveTo, currentPosition]
